import Mathlib

/-!
Shallow embedding of `src/main.py`, a FastAPI server that lists DASH video
folders and serves their MPD manifest files.

Filesystem model: a finite association list from paths (lists of segments,
relative to the server's working directory) to nodes (regular file with
string content, or directory).  `os.path.exists` / `os.path.isdir` resolve
`.` and `..` segments lexically, which `normSegs` models; a well-formed
filesystem stores already-normalised, duplicate-free paths.
-/

/-- A filesystem node: a regular file (with its byte content as a string) or
a directory. -/
inductive FsNode where
  | file (content : String)
  | dir
deriving DecidableEq, Repr

/-- Lexical resolution of `.` and `..` segments, as the OS applies to a path
such as `videos/../main.py` before checking existence.  `acc` holds the
already-resolved segments in reverse. -/
def normAux : List String → List String → List String
  | acc, [] => acc.reverse
  | acc, s :: rest =>
    if s = ".." then normAux acc.tail rest
    else if s = "." || s = "" then normAux acc rest
    else normAux (s :: acc) rest

/-- Normalise a segment list: drop `.`/empty segments and resolve `..`. -/
def normSegs (p : List String) : List String := normAux [] p

/-- The filesystem state visible to the server process. -/
structure FileSystem where
  nodes : List (List String × FsNode)
deriving Repr

/-- Look a path up in the filesystem, resolving `.`/`..` lexically as the OS
does (`os.path.exists`, `open`, …). -/
def FileSystem.lookup (fs : FileSystem) (p : List String) : Option FsNode :=
  (fs.nodes.find? (fun e => e.1 = normSegs p)).map (·.2)

/-- Model of `os.path.exists`: true for files and directories alike. -/
def FileSystem.pathExists (fs : FileSystem) (p : List String) : Bool :=
  (fs.lookup p).isSome

/-- Model of `os.path.isdir`. -/
def FileSystem.isDir (fs : FileSystem) (p : List String) : Bool :=
  fs.lookup p = some FsNode.dir

/-- Model of `os.listdir root`: the names of the immediate children of
`root`.  The order is whatever order the filesystem state lists them in
(the OS gives no ordering guarantee, which is why the server sorts
afterwards). -/
def FileSystem.listdir (fs : FileSystem) (root : List String) : List String :=
  fs.nodes.filterMap (fun e => if e.1.dropLast = root then e.1.getLast? else none)

/-- Well-formed filesystem state: paths are duplicate-free and already
normalised (no `.`/`..`/empty segments), as real directory trees are. -/
def FileSystem.WF (fs : FileSystem) : Prop :=
  (fs.nodes.map Prod.fst).Nodup ∧ ∀ p ∈ fs.nodes.map Prod.fst, normSegs p = p

instance (fs : FileSystem) : Decidable fs.WF := by
  unfold FileSystem.WF; infer_instance

/-- One catalog entry, as built by both listing endpoints
(`{"name": ..., "mpd_file": ..., "display_name": ...}`). -/
structure VideoEntry where
  name : String
  mpd_file : String
  display_name : String
deriving DecidableEq, Repr

/-- Python `str.replace("_", " ")` (single-character case). -/
def pyReplaceChar (a b : Char) (s : String) : String :=
  ⟨s.data.map (fun c => if c = a then b else c)⟩

/-- Python `str.title()` on ASCII text: the first character of every run of
letters is uppercased, the rest lowercased. -/
def pyTitleAux : List Char → Bool → List Char
  | [], _ => []
  | c :: cs, prevAlpha =>
    (if prevAlpha then c.toLower else c.toUpper) :: pyTitleAux cs c.isAlpha

/-- Python `str.title()`. -/
def pyTitle (s : String) : String := ⟨pyTitleAux s.data false⟩

/-- The display name both listing endpoints build:
`video_dir.replace("_", " ").title()`. -/
def displayNameOf (d : String) : String := pyTitle (pyReplaceChar '_' ' ' d)

/-- The manifest URL both listing endpoints embed:
`f"http://127.0.0.1:8000/videos/{video_dir}/{video_dir}.mpd"`. -/
def mpdUrlOf (d : String) : String :=
  "http://127.0.0.1:8000/videos/" ++ d ++ "/" ++ d ++ ".mpd"

/-- The catalog entry appended for a discovered video directory. -/
def mkEntry (d : String) : VideoEntry :=
  { name := d, mpd_file := mpdUrlOf d, display_name := displayNameOf d }

/-- The master-manifest test both endpoints apply to a candidate directory
`d`: `os.path.exists(os.path.join("videos", d, d + ".mpd"))`. -/
def hasMasterMpd (fs : FileSystem) (d : String) : Bool :=
  fs.pathExists ["videos", d, d ++ ".mpd"]

/-- Build the unsorted `videos_data` list from a list of candidate
directories: keep those whose master MPD path exists, make an entry each. -/
def entriesOf (fs : FileSystem) (dirs : List String) : List VideoEntry :=
  (dirs.filter (fun d => hasMasterMpd fs d)).map mkEntry

/-- Lexicographic comparison of character sequences by code point, the
order Python's `<=` puts on strings. -/
def charListLe : List Char → List Char → Bool
  | [], _ => true
  | _ :: _, [] => false
  | a :: as, b :: bs =>
    if a.toNat < b.toNat then true
    else if b.toNat < a.toNat then false
    else charListLe as bs

/-- Python's `<=` on strings: lexicographic by code point. -/
def pyStrLe (a b : String) : Prop := charListLe a.data b.data = true

instance : DecidableRel pyStrLe :=
  fun a b => inferInstanceAs (Decidable (charListLe a.data b.data = true))

/-- Ordering on entries used by `videos_data.sort(key=lambda x: x["name"])`:
compare the `name` fields. -/
def nameLe (a b : VideoEntry) : Prop := pyStrLe a.name b.name

instance : DecidableRel nameLe :=
  fun a b => inferInstanceAs (Decidable (pyStrLe a.name b.name))

lemma charListLe_total : ∀ as bs, charListLe as bs = true ∨ charListLe bs as = true
  | [], _ => Or.inl rfl
  | _ :: _, [] => Or.inr rfl
  | a :: as, b :: bs => by
    rcases Nat.lt_trichotomy a.toNat b.toNat with h | h | h
    · exact Or.inl (by simp [charListLe, h])
    · have hn : ¬a.toNat < b.toNat := by omega
      have hn2 : ¬b.toNat < a.toNat := by omega
      rcases charListLe_total as bs with ih | ih
      · exact Or.inl (by simp [charListLe, hn, hn2, ih])
      · exact Or.inr (by simp [charListLe, hn, hn2, ih])
    · exact Or.inr (by simp [charListLe, h])

lemma charListLe_trans :
    ∀ as bs cs, charListLe as bs = true → charListLe bs cs = true →
      charListLe as cs = true
  | [], _, _, _, _ => rfl
  | _ :: _, [], _, h1, _ => by simp [charListLe] at h1
  | _ :: _, _ :: _, [], _, h2 => by simp [charListLe] at h2
  | a :: as, b :: bs, c :: cs, h1, h2 => by
    simp only [charListLe] at h1 h2 ⊢
    rcases Nat.lt_trichotomy a.toNat b.toNat with hab | hab | hab
    · rcases Nat.lt_trichotomy b.toNat c.toNat with hbc | hbc | hbc
      · rw [if_pos (show a.toNat < c.toNat by omega)]
      · rw [if_pos (show a.toNat < c.toNat by omega)]
      · rw [if_neg (show ¬b.toNat < c.toNat by omega), if_pos hbc] at h2
        simp at h2
    · rw [if_neg (show ¬a.toNat < b.toNat by omega),
        if_neg (show ¬b.toNat < a.toNat by omega)] at h1
      rcases Nat.lt_trichotomy b.toNat c.toNat with hbc | hbc | hbc
      · rw [if_pos (show a.toNat < c.toNat by omega)]
      · rw [if_neg (show ¬b.toNat < c.toNat by omega),
          if_neg (show ¬c.toNat < b.toNat by omega)] at h2
        rw [if_neg (show ¬a.toNat < c.toNat by omega),
          if_neg (show ¬c.toNat < a.toNat by omega)]
        exact charListLe_trans as bs cs h1 h2
      · rw [if_neg (show ¬b.toNat < c.toNat by omega), if_pos hbc] at h2
        simp at h2
    · rw [if_neg (show ¬a.toNat < b.toNat by omega), if_pos hab] at h1
      simp at h1

instance : IsTotal VideoEntry nameLe :=
  ⟨fun a b => charListLe_total a.name.data b.name.data⟩

instance : IsTrans VideoEntry nameLe :=
  ⟨fun a b c => charListLe_trans a.name.data b.name.data c.name.data⟩

/-- The in-place `videos_data.sort(key=lambda x: x["name"])` (a stable sort
by the name key). -/
def sortByName (l : List VideoEntry) : List VideoEntry :=
  l.insertionSort nameLe

/-- Candidate directories of `render_videos` (GET `/`, line 48): all
immediate subdirectories of `videos` — note: no reserved-name filter here. -/
def render_videos_dirs (fs : FileSystem) : List String :=
  (fs.listdir ["videos"]).filter (fun d => fs.isDir ["videos", d])

/-- The sorted `videos_data` list embedded (one card per entry) in the HTML
page returned by GET `/`. -/
def render_videos (fs : FileSystem) : List VideoEntry :=
  sortByName (entriesOf fs (render_videos_dirs fs))

/-- Candidate directories of `get_videos_list` (GET `/api/videos`,
line 261): immediate subdirectories of `videos`, excluding the reserved
name `"export"`. -/
def get_videos_list_dirs (fs : FileSystem) : List String :=
  (fs.listdir ["videos"]).filter (fun d => fs.isDir ["videos", d] && d ≠ "export")

/-- The sorted `videos` array returned by GET `/api/videos`. -/
def get_videos_list (fs : FileSystem) : List VideoEntry :=
  sortByName (entriesOf fs (get_videos_list_dirs fs))

/-- Result of the `serve_mpd` handler body: either the 404 branch
(`HTTPException(404, "MPD file not found")`) or a `FileResponse` for the
resolved path. -/
inductive MpdResult where
  | notFound
  | fileResponse (path : List String)
deriving DecidableEq, Repr

/-- The handler of GET `/videos/{video_name}/{mpd_file}` (line 23):
the path is built by naive concatenation,
`file_path = f"videos/{video_name}/{mpd_file}"`, then
`os.path.exists(file_path)` decides between `FileResponse` and 404.
There is no check on the `mpd_file` extension and no containment check;
the OS resolves `..` segments when the path is dereferenced (which
`FileSystem.lookup` models). -/
def serve_mpd (fs : FileSystem) (video_name mpd_file : String) : MpdResult :=
  let file_path := ["videos", video_name, mpd_file]
  if fs.pathExists file_path then MpdResult.fileResponse file_path
  else MpdResult.notFound

/-- An HTTP response as far as the claims observe it. -/
structure HttpResponse where
  status : Nat
  body : Option String
  headers : List (String × String)
  mediaType : Option String
deriving DecidableEq, Repr

/-- The response `serve_mpd` produces once the `FileResponse` is sent:
200 with the exact file bytes, the cache-busting headers and the DASH
media type when the path is a regular file; 404 from the `HTTPException`
branch; a server error when `FileResponse` is handed a path that exists
but is not a regular file (it raises while sending). -/
def serve_mpd_response (fs : FileSystem) (video_name mpd_file : String) : HttpResponse :=
  match serve_mpd fs video_name mpd_file with
  | MpdResult.notFound =>
    { status := 404, body := some "MPD file not found", headers := [], mediaType := none }
  | MpdResult.fileResponse p =>
    match fs.lookup p with
    | some (FsNode.file c) =>
      { status := 200, body := some c,
        headers := [("Cache-Control", "no-cache, no-store, must-revalidate"),
                    ("Pragma", "no-cache"), ("Expires", "0")],
        mediaType := some "application/dash+xml" }
    | _ => { status := 500, body := none, headers := [], mediaType := none }

/-- Is a path inside the `videos` root once `.`/`..` are resolved? -/
def insideVideosRoot (p : List String) : Bool :=
  (normSegs p).head? = some "videos"

/-- Which registered handler serves a request path.  Starlette matches
routes in registration order: the `/videos/{video_name}/{mpd_file}` route
(line 23) is registered before the `StaticFiles` mount at `/videos`
(line 41), which precedes `/` (line 43), `/test-mpd/{video_name}`
(line 249) and `/api/videos` (line 258). -/
inductive RouteTarget where
  | serveMpdRoute (video_name mpd_file : String)
  | staticMount (rest : List String)
  | rootPage
  | testMpd (video_name : String)
  | apiVideos
  | noRoute
deriving DecidableEq, Repr

/-- Route dispatch on the request path's segments, in registration order. -/
def routeFor : List String → RouteTarget
  | ["videos", v, m] => RouteTarget.serveMpdRoute v m
  | "videos" :: rest => RouteTarget.staticMount rest
  | [] => RouteTarget.rootPage
  | ["test-mpd", v] => RouteTarget.testMpd v
  | ["api", "videos"] => RouteTarget.apiVideos
  | _ => RouteTarget.noRoute

/-- Modelled from the spec (section 4.2): the manifest URL the spec
requires, absolute with scheme and host taken from the incoming request. -/
def specManifestUrl (scheme host d : String) : String :=
  scheme ++ "://" ++ host ++ "/videos/" ++ d ++ "/" ++ d ++ ".mpd"


/-- Fixture: `videos/demo/` with its master manifest and one segment. -/
def fsDemo : FileSystem :=
  ⟨[(["videos", "demo"], FsNode.dir),
    (["videos", "demo", "demo.mpd"], FsNode.file "manifest-bytes"),
    (["videos", "demo", "seg1.m4s"], FsNode.file "segment-bytes")]⟩


/-- Fixture: an empty filesystem (no `videos` children at all). -/
def fsEmpty : FileSystem := ⟨[]⟩

/-- Fixture: the reserved staging folder `videos/export/` containing the
matching manifest `export.mpd`. -/
def fsExport : FileSystem :=
  ⟨[(["videos", "export"], FsNode.dir),
    (["videos", "export", "export.mpd"], FsNode.file "export-manifest")]⟩

/-- Fixture: the server's own source file next to the `videos` root, the
target of a `..` path-traversal request. -/
def fsTrav : FileSystem :=
  ⟨[(["main.py"], FsNode.file "from fastapi import FastAPI"),
    (["videos", "demo"], FsNode.dir)]⟩

/-- Fixture: `videos/demo/demo.mpd` exists but is a directory, not a
regular file. -/
def fsDirMpd : FileSystem :=
  ⟨[(["videos", "demo"], FsNode.dir),
    (["videos", "demo", "demo.mpd"], FsNode.dir)]⟩

/-- Fixture: two video folders, listed on disk in non-alphabetical order. -/
def fsTwo : FileSystem :=
  ⟨[(["videos", "zeta_clip"], FsNode.dir),
    (["videos", "zeta_clip", "zeta_clip.mpd"], FsNode.file "z-manifest"),
    (["videos", "alpha_clip"], FsNode.dir),
    (["videos", "alpha_clip", "alpha_clip.mpd"], FsNode.file "a-manifest")]⟩


lemma path_eq_concat {p root : List String} {n : String}
    (h1 : p.dropLast = root) (h2 : p.getLast? = some n) : p = root ++ [n] := by
  have hne : p ≠ [] := by
    intro h
    subst h
    simp at h2
  have h3 := List.dropLast_append_getLast hne
  rw [List.getLast?_eq_getLast p hne, Option.some.injEq] at h2
  rw [← h3, h1, h2]

lemma listdir_eq (fs : FileSystem) (root : List String) :
    fs.listdir root = (fs.nodes.map Prod.fst).filterMap
      (fun p => if p.dropLast = root then p.getLast? else none) := by
  rw [List.filterMap_map]
  rfl

lemma mem_listdir {fs : FileSystem} {root : List String} {n : String} :
    n ∈ fs.listdir root ↔ root ++ [n] ∈ fs.nodes.map Prod.fst := by
  rw [listdir_eq, List.mem_filterMap]
  constructor
  · rintro ⟨p, hp, hsome⟩
    by_cases h : p.dropLast = root
    · rw [if_pos h] at hsome
      rwa [← path_eq_concat h hsome]
    · rw [if_neg h] at hsome
      exact absurd hsome (by simp)
  · intro h
    refine ⟨root ++ [n], h, ?_⟩
    rw [if_pos List.dropLast_concat]
    exact List.getLast?_concat root

lemma listdir_nodup {fs : FileSystem} (h : (fs.nodes.map Prod.fst).Nodup)
    (root : List String) : (fs.listdir root).Nodup := by
  rw [listdir_eq]
  refine List.Nodup.filterMap ?_ h
  intro p q n hp hq
  by_cases h1 : p.dropLast = root
  · by_cases h2 : q.dropLast = root
    · rw [if_pos h1] at hp
      rw [if_pos h2] at hq
      rw [path_eq_concat h1 hp, path_eq_concat h2 hq]
    · rw [if_neg h2] at hq
      exact absurd hq (by simp)
  · rw [if_neg h1] at hp
    exact absurd hp (by simp)

lemma lookup_eq_of_mem {fs : FileSystem} (hwf : fs.WF) {p : List String}
    {node : FsNode} (hmem : (p, node) ∈ fs.nodes) : fs.lookup p = some node := by
  have hnorm : normSegs p = p := hwf.2 p (List.mem_map_of_mem Prod.fst hmem)
  unfold FileSystem.lookup
  have hsome : (fs.nodes.find? (fun e => e.1 = normSegs p)).isSome := by
    rw [List.find?_isSome]
    exact ⟨(p, node), hmem, by simp [hnorm]⟩
  obtain ⟨e, he⟩ := Option.isSome_iff_exists.mp hsome
  have he1 : e.1 = normSegs p := by simpa using List.find?_some he
  have hemem : e ∈ fs.nodes := List.mem_of_find?_eq_some he
  have heq : e = (p, node) :=
    List.inj_on_of_nodup_map hwf.1 hemem hmem (by rw [he1, hnorm])
  rw [he, heq]
  rfl

lemma mem_of_lookup_eq_some {fs : FileSystem} {p : List String} {node : FsNode}
    (h : fs.lookup p = some node) : (normSegs p, node) ∈ fs.nodes := by
  unfold FileSystem.lookup at h
  obtain ⟨e, he, h2⟩ := Option.map_eq_some'.mp h
  have he1 : e.1 = normSegs p := by simpa using List.find?_some he
  have hemem : e ∈ fs.nodes := List.mem_of_find?_eq_some he
  have heq : e = (normSegs p, node) := by
    cases e
    simp only [Prod.mk.injEq]
    exact ⟨he1, h2⟩
  rwa [heq] at hemem

lemma map_name_entriesOf (fs : FileSystem) (dirs : List String) :
    (entriesOf fs dirs).map VideoEntry.name =
      dirs.filter (fun d => hasMasterMpd fs d) := by
  unfold entriesOf
  rw [List.map_map]
  have : VideoEntry.name ∘ mkEntry = id := by
    funext d
    rfl
  rw [this, List.map_id]

lemma count_filter_eq {α : Type} [DecidableEq α] (p : α → Bool) (l : List α)
    (a : α) : (l.filter p).count a = if p a then l.count a else 0 := by
  by_cases h : p a
  · rw [if_pos h, List.count_filter (by simpa using h)]
  · rw [if_neg h, List.count_eq_zero]
    intro hmem
    exact h (List.of_mem_filter hmem)

lemma map_name_perm_filter (fs : FileSystem) (dirs : List String) :
    ((sortByName (entriesOf fs dirs)).map VideoEntry.name).Perm
      (dirs.filter (fun d => hasMasterMpd fs d)) := by
  have h1 := (List.perm_insertionSort nameLe (entriesOf fs dirs)).map VideoEntry.name
  rwa [map_name_entriesOf] at h1

/-- Does the string `s` end with the string `t`?  (Used to state which
requests the spec calls manifest requests; the handler itself never makes
this test.) -/
def strEndsWith (s t : String) : Bool :=
  t.data.length ≤ s.data.length && s.data.drop (s.data.length - t.data.length) == t.data


/-- C1: the listing endpoints do not build manifest URLs from the incoming
request.  Both embed successful entries whose `mpd_file` is the hardcoded
`http://127.0.0.1:8000/...`, which differs from the spec-required URL for
any other scheme/host (here `http://example.com:9000`). -/
theorem listing_mpd_urls_hardcoded :
    (get_videos_list fsDemo).map VideoEntry.mpd_file =
      ["http://127.0.0.1:8000/videos/demo/demo.mpd"] ∧
    (render_videos fsDemo).map VideoEntry.mpd_file =
      ["http://127.0.0.1:8000/videos/demo/demo.mpd"] ∧
    specManifestUrl "http" "example.com:9000" "demo" =
      "http://example.com:9000/videos/demo/demo.mpd" ∧
    mpdUrlOf "demo" ≠ specManifestUrl "http" "example.com:9000" "demo" :=
  ⟨by decide, by decide, by decide, by decide⟩

/-- C2 counterexample: a request whose file segment does not end in `.mpd`
(`seg1.m4s`) is not answered 404 when the file exists — `serve_mpd` serves
it. -/
theorem non_mpd_request_not_rejected :
    strEndsWith "seg1.m4s" ".mpd" = false ∧
    serve_mpd fsDemo "demo" "seg1.m4s" ≠ MpdResult.notFound ∧
    (serve_mpd_response fsDemo "demo" "seg1.m4s").status = 200 :=
  ⟨by decide, by decide, by decide⟩

/-- C2 (amended): for a file segment not ending in `.mpd`, `serve_mpd`
returns 404 exactly when the resolved path does not exist; an existing
non-manifest file is served with 200 and its bytes (there is no extension
check). -/
theorem serve_mpd_no_extension_check (fs : FileSystem) (v m : String)
    (_hm : strEndsWith m ".mpd" = false) :
    (serve_mpd fs v m = MpdResult.notFound ↔
      fs.pathExists ["videos", v, m] = false) ∧
    (∀ c, fs.lookup ["videos", v, m] = some (FsNode.file c) →
      (serve_mpd_response fs v m).status = 200 ∧
      (serve_mpd_response fs v m).body = some c) := by
  constructor
  · unfold serve_mpd
    by_cases he : fs.pathExists ["videos", v, m] = true
    · simp [he]
    · have hf : fs.pathExists ["videos", v, m] = false := by
        cases hh : fs.pathExists ["videos", v, m]
        · rfl
        · exact absurd hh he
      simp [hf]
  · intro c hc
    have hpe : fs.pathExists ["videos", v, m] = true := by
      simp [FileSystem.pathExists, hc]
    constructor <;> simp [serve_mpd_response, serve_mpd, hpe, hc]

/-- C2 witness: instantiation of the amended claim at the fixture. -/
theorem serve_mpd_no_extension_check_witness :
    (serve_mpd fsDemo "demo" "seg1.m4s" = MpdResult.notFound ↔
      fsDemo.pathExists ["videos", "demo", "seg1.m4s"] = false) ∧
    (serve_mpd_response fsDemo "demo" "seg1.m4s").status = 200 ∧
    (serve_mpd_response fsDemo "demo" "seg1.m4s").body = some "segment-bytes" :=
  ⟨(serve_mpd_no_extension_check fsDemo "demo" "seg1.m4s" (by decide)).1,
   (serve_mpd_no_extension_check fsDemo "demo" "seg1.m4s" (by decide)).2
     "segment-bytes" (by decide)⟩

/-- C3 counterexample: with `videos/export/export.mpd` on disk, the HTML
listing (GET `/`) does include the reserved folder `export` — only the JSON
endpoint filters it out. -/
theorem export_listed_by_render_videos :
    (render_videos fsExport).map VideoEntry.name = ["export"] ∧
    "export" ∈ (render_videos fsExport).map VideoEntry.name :=
  ⟨by decide, by decide⟩

/-- C3 (amended): the reserved name `export` never appears in the catalog
returned by GET `/api/videos`, whatever the filesystem contains; the HTML
page of GET `/` does not share this exclusion. -/
theorem export_never_in_api_catalog (fs : FileSystem) :
    ((get_videos_list fs).map VideoEntry.name).count "export" = 0 := by
  rw [List.count_eq_zero]
  intro hmem
  rw [show get_videos_list fs = sortByName (entriesOf fs (get_videos_list_dirs fs))
    from rfl] at hmem
  rw [(map_name_perm_filter fs (get_videos_list_dirs fs)).mem_iff] at hmem
  have h2 := (List.mem_filter.mp (List.mem_filter.mp hmem).1).2
  simp at h2

/-- C4: path traversal is not rejected.  The request
GET `/videos/../main.py` resolves outside the `videos` root (to the
server's own `main.py`), yet `serve_mpd` serves it with 200 and the file's
bytes. -/
theorem serve_mpd_serves_path_traversal :
    insideVideosRoot ["videos", "..", "main.py"] = false ∧
    serve_mpd fsTrav ".." "main.py" =
      MpdResult.fileResponse ["videos", "..", "main.py"] ∧
    (serve_mpd_response fsTrav ".." "main.py").status = 200 ∧
    (serve_mpd_response fsTrav ".." "main.py").body =
      some "from fastapi import FastAPI" :=
  ⟨by decide, by decide, by decide, by decide⟩

/-- C5 counterexample: on a filesystem whose only video folder is the
reserved `export`, the HTML page lists one entry while the JSON endpoint
lists none — the two views are not the same catalog. -/
theorem html_and_api_catalogs_differ :
    render_videos fsExport ≠ get_videos_list fsExport ∧
    (render_videos fsExport).map VideoEntry.name = ["export"] ∧
    (get_videos_list fsExport).map VideoEntry.name = [] :=
  ⟨by decide, by decide, by decide⟩

/-- C5 (amended): whenever `videos/export` is not a directory holding
`export.mpd`, the entry list embedded in the HTML page equals the JSON
list exactly (same ids, order, URLs and display names); they can differ
only by the `export` entry. -/
theorem catalogs_agree_without_export (fs : FileSystem)
    (h : ¬(fs.isDir ["videos", "export"] = true ∧
      hasMasterMpd fs "export" = true)) :
    render_videos fs = get_videos_list fs := by
  unfold render_videos get_videos_list
  congr 1
  unfold entriesOf
  congr 1
  unfold render_videos_dirs get_videos_list_dirs
  rw [List.filter_filter, List.filter_filter]
  apply List.filter_congr
  intro d _
  by_cases hd : d = "export"
  · subst hd
    by_cases h1 : fs.isDir ["videos", "export"] = true
    · have h2 : hasMasterMpd fs "export" = false := by
        cases hh : hasMasterMpd fs "export"
        · rfl
        · exact absurd ⟨h1, hh⟩ h
      simp [h2]
    · have h1f : fs.isDir ["videos", "export"] = false := by
        cases hh : fs.isDir ["videos", "export"]
        · rfl
        · exact absurd hh h1
      simp [h1f]
  · simp [hd]

/-- C5 witness: instantiation of the amended claim at the demo fixture. -/
theorem catalogs_agree_without_export_witness :
    render_videos fsDemo = get_videos_list fsDemo :=
  catalogs_agree_without_export fsDemo (by decide)

/-- C6 counterexample: the request GET `/videos/demo/seg1.m4s` matches the
`serve_mpd` route, which is registered before the `StaticFiles` mount, so
the segment is not served by the mount. -/
theorem segment_request_not_served_by_static_mount :
    routeFor ["videos", "demo", "seg1.m4s"] =
      RouteTarget.serveMpdRoute "demo" "seg1.m4s" ∧
    routeFor ["videos", "demo", "seg1.m4s"] ≠
      RouteTarget.staticMount ["demo", "seg1.m4s"] :=
  ⟨by decide, by decide⟩

/-- C6 (amended): every two-segment path under `/videos` — manifest or
not — is dispatched to the `serve_mpd` route; the `StaticFiles` mount only
receives `/videos` paths whose remainder is not exactly two segments. -/
theorem two_segment_videos_paths_route_to_serve_mpd (v m : String)
    (rest : List String) (h : rest.length ≠ 2) :
    routeFor ["videos", v, m] = RouteTarget.serveMpdRoute v m ∧
    routeFor ("videos" :: rest) = RouteTarget.staticMount rest := by
  refine ⟨rfl, ?_⟩
  rcases rest with _ | ⟨a, _ | ⟨b, _ | ⟨c, t⟩⟩⟩
  · rfl
  · rfl
  · exact absurd rfl h
  · rfl

/-- C6 witness: instantiation of the amended claim at concrete paths. -/
theorem two_segment_videos_paths_route_to_serve_mpd_witness :
    routeFor ["videos", "demo", "seg1.m4s"] =
      RouteTarget.serveMpdRoute "demo" "seg1.m4s" ∧
    routeFor ["videos", "demo"] = RouteTarget.staticMount ["demo"] :=
  two_segment_videos_paths_route_to_serve_mpd "demo" "seg1.m4s" ["demo"]
    (by decide)

/-- C7 counterexample: when `videos/demo/demo.mpd` exists but is a
directory (not a file), the subdirectory `demo` lacks a same-named
manifest file, yet GET `/api/videos` still lists it — the discovery test
is `os.path.exists`, not a regular-file test. -/
theorem api_catalog_entry_without_manifest_file :
    (get_videos_list fsDirMpd).map VideoEntry.name = ["demo"] ∧
    fsDirMpd.lookup ["videos", "demo", "demo.mpd"] = some FsNode.dir :=
  ⟨by decide, by decide⟩

/-- C7 (amended): on a well-formed filesystem, the catalog of
GET `/api/videos` has exactly one entry named `d` for every immediate
subdirectory `d` of the root other than `export` for which the path
`videos/d/d.mpd` exists (as a file or directory), and no entry otherwise. -/
theorem api_catalog_exactly_discovered (fs : FileSystem) (hwf : fs.WF)
    (d : String) :
    ((get_videos_list fs).map VideoEntry.name).count d =
      if (["videos", d], FsNode.dir) ∈ fs.nodes ∧ d ≠ "export" ∧
          hasMasterMpd fs d = true
      then 1 else 0 := by
  rw [show get_videos_list fs = sortByName (entriesOf fs (get_videos_list_dirs fs))
    from rfl]
  rw [(map_name_perm_filter fs (get_videos_list_dirs fs)).count_eq d,
    count_filter_eq]
  unfold get_videos_list_dirs
  rw [count_filter_eq]
  by_cases hm : ["videos", d] ∈ fs.nodes.map Prod.fst
  · have hnorm : normSegs ["videos", d] = ["videos", d] := hwf.2 _ hm
    have hcount : (fs.listdir ["videos"]).count d = 1 :=
      List.count_eq_one_of_mem (listdir_nodup hwf.1 _) (mem_listdir.mpr hm)
    have hdir : fs.isDir ["videos", d] = true ↔
        (["videos", d], FsNode.dir) ∈ fs.nodes := by
      constructor
      · intro h
        have h2 : fs.lookup ["videos", d] = some FsNode.dir := by
          simpa [FileSystem.isDir] using h
        have h3 := mem_of_lookup_eq_some h2
        rwa [hnorm] at h3
      · intro h
        simp [FileSystem.isDir, lookup_eq_of_mem hwf h]
    by_cases h3 : hasMasterMpd fs d = true
    · by_cases h1 : fs.isDir ["videos", d] = true
      · by_cases h2 : d = "export"
        · subst h2
          simp [h1, h3, hcount]
        · simp [h1, h2, h3, hcount, hdir.mp h1]
      · have hnot : (["videos", d], FsNode.dir) ∉ fs.nodes := fun hmem =>
          h1 (hdir.mpr hmem)
        have h1f : fs.isDir ["videos", d] = false := by
          cases hh : fs.isDir ["videos", d]
          · rfl
          · exact absurd hh h1
        simp [h1f, h3, hnot]
    · have h3f : hasMasterMpd fs d = false := by
        cases hh : hasMasterMpd fs d
        · rfl
        · exact absurd hh h3
      simp [h3f]
  · have hcount : (fs.listdir ["videos"]).count d = 0 := by
      rw [List.count_eq_zero]
      intro hc
      exact hm (mem_listdir.mp hc)
    have hnot : (["videos", d], FsNode.dir) ∉ fs.nodes := fun hmem =>
      hm (List.mem_map_of_mem Prod.fst hmem)
    simp [hcount, hnot]

/-- C7 witness: instantiation of the amended claim at the demo fixture. -/
theorem api_catalog_exactly_discovered_witness :
    ((get_videos_list fsDemo).map VideoEntry.name).count "demo" =
      if (["videos", "demo"], FsNode.dir) ∈ fsDemo.nodes ∧ "demo" ≠ "export" ∧
          hasMasterMpd fsDemo "demo" = true
      then 1 else 0 :=
  api_catalog_exactly_discovered fsDemo (by decide) "demo"

/-- C8: GET `/videos/{folder}/{folder}.mpd` answers 404 when the resolved
path does not exist, and when it is a regular file answers 200 with the
exact file bytes, the `Cache-Control` header and the DASH content type. -/
theorem serve_mpd_master_manifest_contract (fs : FileSystem) (folder : String) :
    (fs.pathExists ["videos", folder, folder ++ ".mpd"] = false →
      (serve_mpd_response fs folder (folder ++ ".mpd")).status = 404) ∧
    (∀ c, fs.lookup ["videos", folder, folder ++ ".mpd"] = some (FsNode.file c) →
      (serve_mpd_response fs folder (folder ++ ".mpd")).status = 200 ∧
      (serve_mpd_response fs folder (folder ++ ".mpd")).body = some c ∧
      ("Cache-Control", "no-cache, no-store, must-revalidate") ∈
        (serve_mpd_response fs folder (folder ++ ".mpd")).headers ∧
      (serve_mpd_response fs folder (folder ++ ".mpd")).mediaType =
        some "application/dash+xml") := by
  constructor
  · intro h
    simp [serve_mpd_response, serve_mpd, h]
  · intro c hc
    have hpe : fs.pathExists ["videos", folder, folder ++ ".mpd"] = true := by
      simp [FileSystem.pathExists, hc]
    refine ⟨?_, ?_, ?_, ?_⟩ <;> simp [serve_mpd_response, serve_mpd, hpe, hc]

/-- C8 witness: instantiation at a missing manifest and at the demo
fixture's real manifest. -/
theorem serve_mpd_master_manifest_contract_witness :
    (serve_mpd_response fsEmpty "demo" ("demo" ++ ".mpd")).status = 404 ∧
    ((serve_mpd_response fsDemo "demo" ("demo" ++ ".mpd")).status = 200 ∧
      (serve_mpd_response fsDemo "demo" ("demo" ++ ".mpd")).body =
        some "manifest-bytes" ∧
      ("Cache-Control", "no-cache, no-store, must-revalidate") ∈
        (serve_mpd_response fsDemo "demo" ("demo" ++ ".mpd")).headers ∧
      (serve_mpd_response fsDemo "demo" ("demo" ++ ".mpd")).mediaType =
        some "application/dash+xml") :=
  ⟨(serve_mpd_master_manifest_contract fsEmpty "demo").1 (by decide),
   (serve_mpd_master_manifest_contract fsDemo "demo").2 "manifest-bytes"
     (by decide)⟩

/-- C9: both catalogs — the JSON array of GET `/api/videos` and the entry
list embedded in the page of GET `/` — are sorted ascending (lexicographic
by code point) on the `name` field. -/
theorem catalogs_sorted_by_name (fs : FileSystem) :
    List.Sorted pyStrLe ((get_videos_list fs).map VideoEntry.name) ∧
    List.Sorted pyStrLe ((render_videos fs).map VideoEntry.name) := by
  constructor <;>
    exact List.Pairwise.map VideoEntry.name (fun a b hab => hab)
      (List.sorted_insertionSort nameLe _)

/-- C10: when the resolved path of GET `/videos/{v}/{m}` exists but is a
directory, the `os.path.exists` check passes, so `serve_mpd` takes the
`FileResponse` branch rather than the 404 branch; the failure surfaces
only when the file response is constructed (a server error, not 404). -/
theorem serve_mpd_directory_passes_existence_check (fs : FileSystem)
    (v m : String) (h : fs.lookup ["videos", v, m] = some FsNode.dir) :
    serve_mpd fs v m = MpdResult.fileResponse ["videos", v, m] ∧
    serve_mpd fs v m ≠ MpdResult.notFound ∧
    (serve_mpd_response fs v m).status = 500 := by
  have hpe : fs.pathExists ["videos", v, m] = true := by
    simp [FileSystem.pathExists, h]
  refine ⟨by simp [serve_mpd, hpe], by simp [serve_mpd, hpe], ?_⟩
  simp [serve_mpd_response, serve_mpd, hpe, h]

/-- C10 witness: instantiation where `videos/demo/demo.mpd` is a
directory. -/
theorem serve_mpd_directory_passes_existence_check_witness :
    serve_mpd fsDirMpd "demo" "demo.mpd" =
      MpdResult.fileResponse ["videos", "demo", "demo.mpd"] ∧
    serve_mpd fsDirMpd "demo" "demo.mpd" ≠ MpdResult.notFound ∧
    (serve_mpd_response fsDirMpd "demo" "demo.mpd").status = 500 :=
  serve_mpd_directory_passes_existence_check fsDirMpd "demo" "demo.mpd"
    (by decide)
